import Mathlib

/-!
Verification development for the ck-ai-assistant repository, a React chat
client backed by Supabase and the Gemini API.  The definitions below are a
shallow embedding of the state-manipulating functions the claims are about:

* the streaming reconciliation of `sendMessage` in src/hooks/useChat.ts,
* the model-fallback generators `generateResponseStream` and `generateTitle`
  in src/services/geminiService.ts,
* the optimistic task mutations `addTask`, `toggleTask`, `deleteTask` of the
  projects hook,
* the file hook `addFile` and the SQL functions `cleanup_expired_files`,
  `delete_old_completed_tasks` and the trigger `update_completed_at`,
* the bounded retry loop of `updateUser` in src/hooks/useAuth.ts.

React state updates performed through functional `setState` are modelled as
pure transformations of the state value; awaited remote calls are modelled by
their outcome, passed in as data.
-/

/-- Sender tag of a chat message (`MessageSender.USER` / `MessageSender.AI`). -/
inductive MessageSender where
  | user
  | ai
deriving DecidableEq

/-- A chat message as held in conversation state: id, sender, text, timestamp
and optional base64 image attachment. -/
structure Message where
  id : String
  sender : MessageSender
  text : String
  timestamp : Nat
  image : Option String := none
deriving DecidableEq

/-- A conversation: id, title, ordered message list, creation time. -/
structure Conversation where
  id : String
  title : String
  messages : List Message
  createdAt : Nat
deriving DecidableEq

/-- The update applied per streamed chunk in `sendMessage`
(useChat.ts lines 357-360): every message whose id equals the placeholder id
gets its text replaced by the accumulated response. -/
def applyChunkUpdate (aiMessageId fullResponse : String) (conv : Conversation) : Conversation :=
  { conv with
    messages := conv.messages.map fun m =>
      if m.id == aiMessageId then { m with text := fullResponse } else m }

/-- The update that appends the user message to an existing conversation
(useChat.ts lines 266-269). -/
def appendUserMessage (userMessage : Message) (conv : Conversation) : Conversation :=
  { conv with messages := conv.messages ++ [userMessage] }

/-- The assistant placeholder created by `sendMessage` (useChat.ts lines
272-278): empty text, AI sender. -/
def aiMessagePlaceholder (aiMessageId : String) (ts : Nat) : Message :=
  { id := aiMessageId, sender := MessageSender.ai, text := "", timestamp := ts }

/-- The update that appends the assistant placeholder (useChat.ts lines
280-283). -/
def appendPlaceholder (aiMessageId : String) (ts : Nat) (conv : Conversation) : Conversation :=
  { conv with messages := conv.messages ++ [aiMessagePlaceholder aiMessageId ts] }

/-- The stream-consumption loop of `sendMessage` (useChat.ts lines 354-361):
`fullResponse` accumulates the chunks and each iteration rewrites the
placeholder text to the accumulated value. -/
def streamLoop (aiMessageId : String) : List String → String → Conversation → Conversation
  | [], _, conv => conv
  | chunk :: rest, fullResponse, conv =>
      streamLoop aiMessageId rest (fullResponse ++ chunk)
        (applyChunkUpdate aiMessageId (fullResponse ++ chunk) conv)

/-- `sendMessage` restricted to an existing active conversation: append the
user message, append the placeholder, then run the stream loop. -/
def sendMessageExisting (userMessage : Message) (aiMessageId : String) (ts : Nat)
    (chunks : List String) (conv : Conversation) : Conversation :=
  streamLoop aiMessageId chunks "" (appendPlaceholder aiMessageId ts (appendUserMessage userMessage conv))

/-- The accumulated response: `fullResponse` starts empty and each chunk is
appended (useChat.ts lines 354-356). -/
def accumulate (chunks : List String) : String :=
  chunks.foldl (fun a c => a ++ c) ""

lemma map_chunk_fresh (aiMessageId fullResponse : String) (base : List Message)
    (h : ∀ m ∈ base, m.id ≠ aiMessageId) :
    (base.map fun m =>
      if m.id == aiMessageId then { m with text := fullResponse } else m) = base := by
  induction base with
  | nil => rfl
  | cons m rest ih =>
      have hm : ¬ (m.id == aiMessageId) = true := by
        simp only [beq_iff_eq]
        exact h m (List.mem_cons_self m rest)
      simp only [List.map_cons, if_neg hm]
      rw [ih fun x hx => h x (List.mem_cons_of_mem _ hx)]

lemma streamLoop_messages (aiMessageId : String) (chunks : List String) :
    ∀ (acc : String) (base : List Message) (ph : Message) (conv : Conversation),
      conv.messages = base ++ [ph] →
      (∀ m ∈ base, m.id ≠ aiMessageId) →
      ph.id = aiMessageId →
      ph.text = acc →
      (streamLoop aiMessageId chunks acc conv).messages
        = base ++ [{ ph with text := chunks.foldl (fun a c => a ++ c) acc }] := by
  induction chunks with
  | nil =>
      intro acc base ph conv hmsgs hfresh hid htext
      simpa [streamLoop, List.foldl_nil, ← htext] using hmsgs
  | cons chunk rest ih =>
      intro acc base ph conv hmsgs hfresh hid htext
      have hph : (ph.id == aiMessageId) = true := by simpa [beq_iff_eq] using hid
      have hstep : (applyChunkUpdate aiMessageId (acc ++ chunk) conv).messages
          = base ++ [{ ph with text := acc ++ chunk }] := by
        simp only [applyChunkUpdate, hmsgs, List.map_append, List.map_cons, List.map_nil,
          if_pos hph]
        rw [map_chunk_fresh aiMessageId (acc ++ chunk) base hfresh]
      have := ih (acc ++ chunk) base { ph with text := acc ++ chunk }
        (applyChunkUpdate aiMessageId (acc ++ chunk) conv) hstep hfresh hid rfl
      simpa [streamLoop] using this

/-- C1: on an existing active conversation, `sendMessage` first appends the
user message, then an empty assistant placeholder, and after the stream
completes the message list is the previous list followed by the user message
and one assistant message whose text is the in-order concatenation of all
streamed chunks. -/
theorem sendMessage_appends_and_streams (conv : Conversation) (userMessage : Message)
    (aiMessageId : String) (ts : Nat) (chunks : List String)
    (hfresh : ∀ m ∈ conv.messages, m.id ≠ aiMessageId)
    (huser : userMessage.id ≠ aiMessageId) :
    (appendUserMessage userMessage conv).messages = conv.messages ++ [userMessage] ∧
    (appendPlaceholder aiMessageId ts (appendUserMessage userMessage conv)).messages
      = (conv.messages ++ [userMessage]) ++ [aiMessagePlaceholder aiMessageId ts] ∧
    (sendMessageExisting userMessage aiMessageId ts chunks conv).messages
      = conv.messages ++
          [userMessage, { aiMessagePlaceholder aiMessageId ts with text := accumulate chunks }] := by
  refine ⟨rfl, rfl, ?_⟩
  have hfresh2 : ∀ m ∈ conv.messages ++ [userMessage], m.id ≠ aiMessageId := by
    intro m hm
    rcases List.mem_append.mp hm with hmem | hmem
    · exact hfresh m hmem
    · rcases List.mem_singleton.mp hmem with rfl
      exact huser
  have h := streamLoop_messages aiMessageId chunks "" (conv.messages ++ [userMessage])
    (aiMessagePlaceholder aiMessageId ts)
    (appendPlaceholder aiMessageId ts (appendUserMessage userMessage conv))
    rfl hfresh2 rfl rfl
  simpa [sendMessageExisting, accumulate, List.append_assoc] using h

/-- Sample finalized user message used by the concrete witnesses. -/
def sampleUserMsg : Message :=
  { id := "msg-1", sender := MessageSender.user, text := "hello", timestamp := 1 }

/-- Sample conversation used by the concrete witnesses. -/
def sampleConv : Conversation :=
  { id := "conv-1", title := "New Conversation", messages := [sampleUserMsg], createdAt := 0 }

/-- Second sample user message, appended by the witness of C1. -/
def sampleUserMsg2 : Message :=
  { id := "msg-2", sender := MessageSender.user, text := "hi", timestamp := 2 }

/-- Witness for C1 at a concrete conversation and chunk list. -/
theorem sendMessage_appends_and_streams_witness :
    (appendUserMessage sampleUserMsg2 sampleConv).messages
      = sampleConv.messages ++ [sampleUserMsg2] ∧
    (appendPlaceholder "msg-2-ai" 2 (appendUserMessage sampleUserMsg2 sampleConv)).messages
      = (sampleConv.messages ++ [sampleUserMsg2]) ++ [aiMessagePlaceholder "msg-2-ai" 2] ∧
    (sendMessageExisting sampleUserMsg2 "msg-2-ai" 2 ["Hel", "lo!"] sampleConv).messages
      = sampleConv.messages ++
          [sampleUserMsg2,
           { aiMessagePlaceholder "msg-2-ai" 2 with text := accumulate ["Hel", "lo!"] }] :=
  sendMessage_appends_and_streams sampleConv sampleUserMsg2 "msg-2-ai" 2 ["Hel", "lo!"]
    (by intro m hm; simp [sampleConv, sampleUserMsg] at hm; simp [hm, sampleUserMsg])
    (by decide)

/-- C4: a single streamed-chunk update rewrites only the message whose id is
the placeholder id; any message at a position holding a different id, and the
conversation id, title and creation time, are unchanged, and the message
count is preserved. -/
theorem chunk_update_frame (conv : Conversation) (aiMessageId fullResponse : String)
    (i : Nat) (m : Message) (hm : conv.messages[i]? = some m)
    (hne : m.id ≠ aiMessageId) :
    (applyChunkUpdate aiMessageId fullResponse conv).id = conv.id ∧
    (applyChunkUpdate aiMessageId fullResponse conv).title = conv.title ∧
    (applyChunkUpdate aiMessageId fullResponse conv).createdAt = conv.createdAt ∧
    (applyChunkUpdate aiMessageId fullResponse conv).messages.length = conv.messages.length ∧
    (applyChunkUpdate aiMessageId fullResponse conv).messages[i]? = some m := by
  refine ⟨rfl, rfl, rfl, by simp [applyChunkUpdate], ?_⟩
  have hbeq : ¬ (m.id == aiMessageId) = true := by simpa [beq_iff_eq] using hne
  simp only [applyChunkUpdate, List.getElem?_map, hm, Option.map_some', if_neg hbeq]

/-- Witness for C4: the finalized user message of the sample conversation is
untouched by a chunk update addressed to the placeholder id. -/
theorem chunk_update_frame_witness :
    (applyChunkUpdate "msg-2-ai" "partial text" sampleConv).id = sampleConv.id ∧
    (applyChunkUpdate "msg-2-ai" "partial text" sampleConv).title = sampleConv.title ∧
    (applyChunkUpdate "msg-2-ai" "partial text" sampleConv).createdAt = sampleConv.createdAt ∧
    (applyChunkUpdate "msg-2-ai" "partial text" sampleConv).messages.length
      = sampleConv.messages.length ∧
    (applyChunkUpdate "msg-2-ai" "partial text" sampleConv).messages[0]? = some sampleUserMsg :=
  chunk_update_frame sampleConv "msg-2-ai" "partial text" 0 sampleUserMsg rfl (by decide)

/-- Outcome of one raw model streaming call in `generateResponseStream`
(geminiService.ts lines 137-147): either the stream completes after yielding
`chunks`, or the call (or the stream) throws after yielding `yielded`. -/
inductive ModelCall where
  | success (chunks : List String)
  | failure (yielded : List String)
deriving DecidableEq

/-- Primary model identifier (geminiService.ts line 13). -/
def PRIMARY_MODEL : String := "gemini-2.5-flash"

/-- Backup model identifier (geminiService.ts line 14). -/
def BACKUP_MODEL : String := "gemini-2.0-flash"

/-- The static apology yielded when both models fail
(geminiService.ts line 154). -/
def apologyMessage : String :=
  "I\x27m sorry, I encountered an error while processing your request. Please try again."

/-- The model loop of `generateResponseStream` (geminiService.ts lines
32-158): on success yield the chunks and return; on failure yield the apology
only when the failing model is the backup, then continue with the remaining
models.  Every failure is caught inside the loop and never rethrown, so the
generator always delivers a plain chunk list to its consumer. -/
def generatorLoop (behavior : String → ModelCall) : List String → List String
  | [] => []
  | model :: rest =>
      match behavior model with
      | ModelCall.success chunks => chunks
      | ModelCall.failure yielded =>
          yielded ++ (if model == BACKUP_MODEL then [apologyMessage] else [])
            ++ generatorLoop behavior rest

/-- `generateResponseStream`: run the loop over the primary then backup model
(geminiService.ts lines 29-159). -/
def generateResponseStream (behavior : String → ModelCall) : List String :=
  generatorLoop behavior [PRIMARY_MODEL, BACKUP_MODEL]

/-- The streaming phase of `sendMessage` as seen from its try/catch
(useChat.ts lines 347-379): a normally completing stream drives the chunk
loop; a stream that raised would instead overwrite the placeholder with the
apology in the catch branch. -/
def streamPhase (streamOutcome : Except String (List String)) (aiMessageId : String)
    (conv : Conversation) : Conversation :=
  match streamOutcome with
  | Except.ok chunks => streamLoop aiMessageId chunks "" conv
  | Except.error _ => applyChunkUpdate aiMessageId apologyMessage conv

/-- The stream outcome `sendMessage` observes: `generateResponseStream`
catches each model failure inside its own loop and its catch block does not
rethrow (geminiService.ts lines 150-157), so the consumer always receives a
normally completed chunk list. -/
def sendMessageStreamOutcome (behavior : String → ModelCall) : Except String (List String) :=
  Except.ok (generateResponseStream behavior)

/-- The guard on title generation in `sendMessage` (useChat.ts line 363):
JavaScript truthiness of `needsTitle && fullResponse`, where a string is
truthy exactly when non-empty. -/
def titleGenerationRuns (needsTitle : Bool) (fullResponse : String) : Bool :=
  needsTitle && !fullResponse.isEmpty

/-- C2: when the primary model call fails (yielding nothing), the backup
model determines the output; when both calls fail the stream is exactly the
apology string and then ends. -/
theorem generateResponseStream_fallback (behavior : String → ModelCall)
    (hp : behavior PRIMARY_MODEL = ModelCall.failure []) :
    (∀ chunks, behavior BACKUP_MODEL = ModelCall.success chunks →
        generateResponseStream behavior = chunks) ∧
    (behavior BACKUP_MODEL = ModelCall.failure [] →
        generateResponseStream behavior = [apologyMessage]) := by
  have hne : (PRIMARY_MODEL == BACKUP_MODEL) = false := by decide
  constructor
  · intro chunks hb
    simp [generateResponseStream, generatorLoop, hp, hb, hne]
  · intro hb
    simp [generateResponseStream, generatorLoop, hp, hb, hne]

/-- Behavior in which both models fail without yielding anything; used by the
concrete witnesses. -/
def bothFailNoChunks : String → ModelCall := fun _ => ModelCall.failure []

/-- Witness for C2: with both models failing outright the stream is exactly
the apology. -/
theorem generateResponseStream_fallback_witness :
    (∀ chunks, bothFailNoChunks BACKUP_MODEL = ModelCall.success chunks →
        generateResponseStream bothFailNoChunks = chunks) ∧
    (bothFailNoChunks BACKUP_MODEL = ModelCall.failure [] →
        generateResponseStream bothFailNoChunks = [apologyMessage]) :=
  generateResponseStream_fallback bothFailNoChunks rfl

lemma accumulate_append_single (xs : List String) (s : String) :
    accumulate (xs ++ [s]) = accumulate xs ++ s := by
  simp [accumulate, List.foldl_append]

lemma accumulate_ne_empty_of_last (xs : List String) (s : String) (hs : s ≠ "") :
    accumulate (xs ++ [s]) ≠ "" := by
  rw [accumulate_append_single]
  intro h
  apply hs
  have hdata := congrArg String.data h
  rw [String.data_append] at hdata
  rcases List.append_eq_nil.mp hdata with ⟨h1, h2⟩
  exact String.ext h2

/-- C3: when both model calls fail, the generator completes normally with the
apology as its final chunk (no exception reaches `sendMessage`, so the catch
branch that would overwrite the placeholder is not taken), the accumulated
response is therefore non-empty, and title generation for a new conversation
still runs. -/
theorem bothFail_completes_normally (behavior : String → ModelCall) (p1 p2 : List String)
    (h1 : behavior PRIMARY_MODEL = ModelCall.failure p1)
    (h2 : behavior BACKUP_MODEL = ModelCall.failure p2) :
    sendMessageStreamOutcome behavior = Except.ok ((p1 ++ p2) ++ [apologyMessage]) ∧
    (∀ aiMessageId conv, streamPhase (sendMessageStreamOutcome behavior) aiMessageId conv
        = streamLoop aiMessageId ((p1 ++ p2) ++ [apologyMessage]) "" conv) ∧
    accumulate (generateResponseStream behavior) ≠ "" ∧
    titleGenerationRuns true (accumulate (generateResponseStream behavior)) = true := by
  have hne : (PRIMARY_MODEL == BACKUP_MODEL) = false := by decide
  have hout : generateResponseStream behavior = (p1 ++ p2) ++ [apologyMessage] := by
    simp [generateResponseStream, generatorLoop, h1, h2, hne]
  have hacc : accumulate (generateResponseStream behavior) ≠ "" := by
    rw [hout]
    exact accumulate_ne_empty_of_last (p1 ++ p2) apologyMessage (by decide)
  refine ⟨by simp [sendMessageStreamOutcome, hout], ?_, hacc, ?_⟩
  · intro aiMessageId conv
    simp [sendMessageStreamOutcome, streamPhase, hout]
  · simp only [titleGenerationRuns, Bool.true_and, Bool.not_eq_true']
    cases hE : (accumulate (generateResponseStream behavior)).isEmpty with
    | false => rfl
    | true => exact absurd ((String.isEmpty_iff _).mp hE) hacc

/-- Witness for C3 at the concrete both-failing behavior. -/
theorem bothFail_completes_normally_witness :
    sendMessageStreamOutcome bothFailNoChunks = Except.ok (([] ++ []) ++ [apologyMessage]) ∧
    (∀ aiMessageId conv, streamPhase (sendMessageStreamOutcome bothFailNoChunks) aiMessageId conv
        = streamLoop aiMessageId (([] ++ []) ++ [apologyMessage]) "" conv) ∧
    accumulate (generateResponseStream bothFailNoChunks) ≠ "" ∧
    titleGenerationRuns true (accumulate (generateResponseStream bothFailNoChunks)) = true :=
  bothFail_completes_normally bothFailNoChunks [] [] rfl rfl

/-- JavaScript `trim`: drop whitespace characters from both ends of the
string, written over the character list so it evaluates by reduction. -/
def jsTrim (s : String) : String :=
  String.mk (((s.data.dropWhile Char.isWhitespace).reverse.dropWhile Char.isWhitespace).reverse)

/-- The sanitization `generateTitle` applies to a successful model response
(geminiService.ts line 170): remove every double-quote, asterisk and hash
character, then trim surrounding whitespace. -/
def sanitizeTitle (text : String) : String :=
  jsTrim (String.mk (text.data.filter fun c => !(c == '"' || c == '*' || c == '#')))

/-- The model loop of `generateTitle` (geminiService.ts lines 161-181): a
model call either returns text (`some`) or throws (`none`); on success return
the sanitized text, on failure of the backup model return the default title,
otherwise continue; the final line after the loop also returns the default. -/
def titleLoop (behavior : String → Option String) : List String → String
  | [] => "New Conversation"
  | model :: rest =>
      match behavior model with
      | some text => sanitizeTitle text
      | none => if model == BACKUP_MODEL then "New Conversation" else titleLoop behavior rest

/-- `generateTitle`: run the title loop over primary then backup model. -/
def generateTitle (behavior : String → Option String) : String :=
  titleLoop behavior [PRIMARY_MODEL, BACKUP_MODEL]

/-- C10: `generateTitle` returns the static default when both model calls
fail, and on the first successful call returns that call's text with every
double-quote, asterisk and hash removed and surrounding whitespace
trimmed. -/
theorem generateTitle_spec (behavior : String → Option String) :
    (behavior PRIMARY_MODEL = none → behavior BACKUP_MODEL = none →
        generateTitle behavior = "New Conversation") ∧
    (∀ t, behavior PRIMARY_MODEL = some t → generateTitle behavior = sanitizeTitle t) ∧
    (∀ t, behavior PRIMARY_MODEL = none → behavior BACKUP_MODEL = some t →
        generateTitle behavior = sanitizeTitle t) := by
  have hne : (PRIMARY_MODEL == BACKUP_MODEL) = false := by decide
  refine ⟨?_, ?_, ?_⟩
  · intro hp hb
    simp [generateTitle, titleLoop, hp, hb, hne]
  · intro t hp
    simp [generateTitle, titleLoop, hp]
  · intro t hp hb
    simp [generateTitle, titleLoop, hp, hb, hne]

/-- Witness for C10: both-failure returns the default, and a successful
primary call returns the sanitized text. -/
theorem generateTitle_spec_witness :
    generateTitle (fun _ => none) = "New Conversation" ∧
    generateTitle (fun m => if m == PRIMARY_MODEL then some " *Chat #1* " else none)
      = sanitizeTitle " *Chat #1* " := by
  refine ⟨(generateTitle_spec (fun _ => none)).1 rfl rfl, ?_⟩
  exact (generateTitle_spec (fun m => if m == PRIMARY_MODEL then some " *Chat #1* " else none)).2.1
    " *Chat #1* " (by simp)

/-- A task as held in the projects hook state (id, text, completed flag,
creation time). -/
structure ProjectTask where
  id : String
  text : String
  completed : Bool
  createdAt : Nat
deriving DecidableEq

/-- One observable step of a task mutation: a local `setTasks` update (with
the resulting list) or an awaited remote store call. -/
inductive StoreStep where
  | localSet (tasks : List ProjectTask)
  | remoteOp (opName : String)
deriving DecidableEq

/-- The step sequence of `addTask` (projects hook, lines 337-385): guard on
empty text and missing user, optimistic local prepend of a temp task, awaited
insert, then either the temp task is replaced by the saved row or removed on
failure. -/
def addTaskTrace (hasUser : Bool) (text : String) (now : Nat) (tasks : List ProjectTask)
    (savedTask : Option ProjectTask) : List StoreStep :=
  if jsTrim text == "" || !hasUser then []
  else
    let tempTask : ProjectTask :=
      { id := "temp-" ++ toString now, text := text, completed := false, createdAt := now }
    let optimistic := tempTask :: tasks
    StoreStep.localSet optimistic :: StoreStep.remoteOp "insert" ::
      (match savedTask with
       | some saved =>
           [StoreStep.localSet (optimistic.map fun t => if t.id == tempTask.id then saved else t)]
       | none =>
           [StoreStep.localSet (optimistic.filter fun t => !(t.id == tempTask.id))])

/-- The step sequence of `toggleTask` (projects hook, lines 387-429): find
the task, optimistic local flip, awaited update, local revert on error. -/
def toggleTaskTrace (hasUser : Bool) (id : String) (tasks : List ProjectTask)
    (dbError : Bool) : List StoreStep :=
  if !hasUser then []
  else
    match tasks.find? (fun t => t.id == id) with
    | none => []
    | some currentTask =>
        let flipped := tasks.map fun t =>
          if t.id == id then { t with completed := !currentTask.completed } else t
        StoreStep.localSet flipped :: StoreStep.remoteOp "update" ::
          (if dbError then
            [StoreStep.localSet (flipped.map fun t =>
              if t.id == id then { t with completed := currentTask.completed } else t)]
           else [])

/-- The step sequence of `deleteTask` (projects hook, lines 431-452): awaited
remote delete first; the local list is filtered only when the delete
succeeded. -/
def deleteTaskTrace (hasUser : Bool) (id : String) (tasks : List ProjectTask)
    (dbError : Bool) : List StoreStep :=
  if !hasUser then []
  else
    StoreStep.remoteOp "delete" ::
      (if dbError then [] else [StoreStep.localSet (tasks.filter fun t => !(t.id == id))])

/-- Whether a local state update happens before the first awaited remote
call of a mutation's step sequence. -/
def localUpdateBeforeFirstRemote : List StoreStep → Bool
  | [] => false
  | StoreStep.localSet _ :: _ => true
  | StoreStep.remoteOp _ :: _ => false

/-- Concrete task used by the C5 counterexample and witness. -/
def sampleTask : ProjectTask :=
  { id := "t1", text := "write report", completed := false, createdAt := 0 }

/-- Counterexample to C5 as stated: `deleteTask` performs no local update
before its remote delete; its first step is the awaited remote call. -/
theorem deleteTask_not_optimistic :
    localUpdateBeforeFirstRemote (deleteTaskTrace true "t1" [sampleTask] false) = false ∧
    deleteTaskTrace true "t1" [sampleTask] false
      = [StoreStep.remoteOp "delete", StoreStep.localSet []] := by
  constructor
  · rfl
  · decide

/-- C5 amended: `addTask` and `toggleTask` update the local list before their
remote store call; `deleteTask` instead issues the remote delete first and
only updates the local list afterwards. -/
theorem task_mutations_update_order (text : String) (now : Nat) (tasks : List ProjectTask)
    (savedTask : Option ProjectTask) (id : String) (dbError : Bool) (t : ProjectTask)
    (htext : ¬ jsTrim text = "")
    (hfind : tasks.find? (fun x => x.id == id) = some t) :
    localUpdateBeforeFirstRemote (addTaskTrace true text now tasks savedTask) = true ∧
    localUpdateBeforeFirstRemote (toggleTaskTrace true id tasks dbError) = true ∧
    localUpdateBeforeFirstRemote (deleteTaskTrace true id tasks dbError) = false ∧
    (deleteTaskTrace true id tasks false).head? = some (StoreStep.remoteOp "delete") := by
  have htext2 : (jsTrim text == "") = false := by simpa [beq_iff_eq] using htext
  refine ⟨?_, ?_, ?_, ?_⟩
  · simp [addTaskTrace, htext2, localUpdateBeforeFirstRemote]
  · simp [toggleTaskTrace, hfind, localUpdateBeforeFirstRemote]
  · simp [deleteTaskTrace, localUpdateBeforeFirstRemote]
  · simp [deleteTaskTrace]

/-- Witness for the amended C5 at a concrete task list. -/
theorem task_mutations_update_order_witness :
    localUpdateBeforeFirstRemote (addTaskTrace true "write report" 5 [sampleTask] none) = true ∧
    localUpdateBeforeFirstRemote (toggleTaskTrace true "t1" [sampleTask] false) = true ∧
    localUpdateBeforeFirstRemote (deleteTaskTrace true "t1" [sampleTask] false) = false ∧
    (deleteTaskTrace true "t1" [sampleTask] false).head? = some (StoreStep.remoteOp "delete") :=
  task_mutations_update_order "write report" 5 [sampleTask] none "t1" false sampleTask
    (by decide) (by decide)

/-- A row of the `projects` table (database_schema.sql lines 64-72).
Timestamps are integers; `completedAt` is nullable. -/
structure ProjectRow where
  id : String
  text : String
  completed : Bool
  createdAt : Int
  updatedAt : Int
  completedAt : Option Int
deriving DecidableEq

/-- Seven days, in the millisecond unit used for timestamps. -/
def sevenDays : Int := 7 * 24 * 60 * 60 * 1000

/-- The WHERE clause of `delete_old_completed_tasks` (database_schema.sql
lines 110-113): completed, non-null completion time, completed more than
seven days before `now`. -/
def purgeCondition (now : Int) (r : ProjectRow) : Bool :=
  r.completed &&
    (match r.completedAt with
     | some t => decide (t < now - sevenDays)
     | none => false)

/-- `delete_old_completed_tasks` (database_schema.sql lines 105-115): delete
the rows matching the WHERE clause, keep everything else verbatim. -/
def delete_old_completed_tasks (now : Int) (rows : List ProjectRow) : List ProjectRow :=
  rows.filter fun r => !purgeCondition now r

/-- C6: the cleanup deletes exactly the completed rows whose non-null
completion time lies more than seven days in the past; every other row (in
particular every incomplete task and every task completed within the last
seven days) survives verbatim, in order. -/
theorem delete_old_completed_tasks_spec (now : Int) (rows : List ProjectRow) (r : ProjectRow) :
    (r ∈ delete_old_completed_tasks now rows ↔
      r ∈ rows ∧ ¬(r.completed = true ∧ ∃ t, r.completedAt = some t ∧ t < now - sevenDays)) ∧
    List.Sublist (delete_old_completed_tasks now rows) rows := by
  constructor
  · rw [delete_old_completed_tasks, List.mem_filter]
    constructor
    · rintro ⟨hmem, hcond⟩
      refine ⟨hmem, ?_⟩
      rintro ⟨hc, t, hat, hlt⟩
      simp [purgeCondition, hc, hat, hlt] at hcond
    · rintro ⟨hmem, hcond⟩
      refine ⟨hmem, ?_⟩
      cases hc : r.completed with
      | false => simp [purgeCondition, hc]
      | true =>
          cases hat : r.completedAt with
          | none => simp [purgeCondition, hc, hat]
          | some t =>
              simp only [purgeCondition, hc, hat, Bool.true_and, Bool.not_eq_true',
                decide_eq_false_iff_not, not_lt]
              by_contra hlt
              exact hcond ⟨hc, t, hat, by omega⟩
  · exact List.filter_sublist rows

/-- A row of the `files` table together with the path of its storage object
(supabase_setup.sql; files hook). -/
structure FileRow where
  id : String
  name : String
  mimeType : String
  size : Nat
  filePath : String
  expiresAt : Int
deriving DecidableEq

/-- The backend state the file functions act on: the `files` table rows and
the object names in the `user-files` storage bucket. -/
structure FileStoreState where
  files : List FileRow
  objects : List String
deriving DecidableEq

/-- `FILE_EXPIRATION_TIME` (files hook, line 6): 24 hours in milliseconds. -/
def FILE_EXPIRATION_TIME : Int := 24 * 60 * 60 * 1000

/-- The metadata row `addFile` inserts (files hook, lines 115-122):
`expires_at` is the upload time plus `FILE_EXPIRATION_TIME`. -/
def mkFileRow (generatedId : String) (uploadTime : Int) (name mimeType : String)
    (size : Nat) (filePath : String) : FileRow :=
  { id := generatedId, name := name, mimeType := mimeType, size := size,
    filePath := filePath, expiresAt := uploadTime + FILE_EXPIRATION_TIME }

/-- `addFile` (files hook, lines 93-155) on the backend state: upload the
storage object, then insert the metadata row. -/
def addFile (generatedId : String) (uploadTime : Int) (name mimeType : String)
    (size : Nat) (filePath : String) (st : FileStoreState) : FileStoreState :=
  { files := mkFileRow generatedId uploadTime name mimeType size filePath :: st.files,
    objects := filePath :: st.objects }

/-- The rows selected by the cursor of `cleanup_expired_files`
(supabase_setup.sql lines 226-229): expiry strictly before `now`. -/
def expiredFileRows (now : Int) (files : List FileRow) : List FileRow :=
  files.filter fun f => decide (f.expiresAt < now)

/-- One loop iteration of `cleanup_expired_files` (supabase_setup.sql lines
230-237): delete the storage object by name and the database row by id. -/
def deleteExpiredOne (st : FileStoreState) (f : FileRow) : FileStoreState :=
  { files := st.files.filter fun g => !(g.id == f.id),
    objects := st.objects.filter fun o => !(o == f.filePath) }

/-- `cleanup_expired_files` (supabase_setup.sql lines 220-240): loop over the
expired rows, deleting each row and its storage object. -/
def cleanup_expired_files (now : Int) (st : FileStoreState) : FileStoreState :=
  (expiredFileRows now st.files).foldl deleteExpiredOne st

lemma foldl_delete_files_mem (fs : List FileRow) (st : FileStoreState) (g : FileRow) :
    g ∈ (fs.foldl deleteExpiredOne st).files ↔
      g ∈ st.files ∧ ∀ f ∈ fs, ¬ g.id = f.id := by
  induction fs generalizing st with
  | nil => simp
  | cons f rest ih =>
      rw [List.foldl_cons, ih]
      simp only [deleteExpiredOne, List.mem_filter, Bool.not_eq_true', beq_eq_false_iff_ne,
        ne_eq, List.mem_cons]
      constructor
      · rintro ⟨⟨hmem, hne⟩, hall⟩
        exact ⟨hmem, fun x hx => hx.elim (fun h => h ▸ hne) (hall x)⟩
      · rintro ⟨hmem, hall⟩
        exact ⟨⟨hmem, hall f (Or.inl rfl)⟩, fun x hx => hall x (Or.inr hx)⟩

lemma foldl_delete_objects_mem (fs : List FileRow) (st : FileStoreState) (o : String) :
    o ∈ (fs.foldl deleteExpiredOne st).objects ↔
      o ∈ st.objects ∧ ∀ f ∈ fs, ¬ o = f.filePath := by
  induction fs generalizing st with
  | nil => simp
  | cons f rest ih =>
      rw [List.foldl_cons, ih]
      simp only [deleteExpiredOne, List.mem_filter, Bool.not_eq_true', beq_eq_false_iff_ne,
        ne_eq, List.mem_cons]
      constructor
      · rintro ⟨⟨hmem, hne⟩, hall⟩
        exact ⟨hmem, fun x hx => hx.elim (fun h => h ▸ hne) (hall x)⟩
      · rintro ⟨hmem, hall⟩
        exact ⟨⟨hmem, hall f (Or.inl rfl)⟩, fun x hx => hall x (Or.inr hx)⟩

/-- C7: the row stored by `addFile` expires exactly 24 hours after the upload
time, and (when row ids are unique) the cleanup removes exactly the rows
whose expiry is before the current time together with their storage objects,
leaving every unexpired row and every other object in place. -/
theorem addFile_cleanup_spec (now uploadTime : Int) (st : FileStoreState)
    (generatedId name mimeType filePath : String) (size : Nat)
    (g : FileRow) (o : String)
    (hids : (st.files.map FileRow.id).Nodup) :
    (addFile generatedId uploadTime name mimeType size filePath st).files.head?
        = some (mkFileRow generatedId uploadTime name mimeType size filePath) ∧
    (mkFileRow generatedId uploadTime name mimeType size filePath).expiresAt
        = uploadTime + 24 * 60 * 60 * 1000 ∧
    (g ∈ (cleanup_expired_files now st).files ↔ g ∈ st.files ∧ ¬ g.expiresAt < now) ∧
    (o ∈ (cleanup_expired_files now st).objects ↔
      o ∈ st.objects ∧ ∀ f ∈ st.files, f.expiresAt < now → ¬ f.filePath = o) := by
  refine ⟨rfl, rfl, ?_, ?_⟩
  · rw [cleanup_expired_files, foldl_delete_files_mem]
    constructor
    · rintro ⟨hmem, hall⟩
      refine ⟨hmem, fun hexp => ?_⟩
      exact hall g (by simp [expiredFileRows, List.mem_filter, hmem, hexp]) rfl
    · rintro ⟨hmem, hnexp⟩
      refine ⟨hmem, fun f hf heq => ?_⟩
      rw [expiredFileRows, List.mem_filter] at hf
      have hfg : f = g :=
        List.inj_on_of_nodup_map hids hf.1 hmem heq.symm
      exact hnexp (by simpa [hfg] using (by simpa using hf.2 : f.expiresAt < now))
  · rw [cleanup_expired_files, foldl_delete_objects_mem]
    constructor
    · rintro ⟨hmem, hall⟩
      refine ⟨hmem, fun f hf hexp heq => ?_⟩
      exact hall f (by simp [expiredFileRows, List.mem_filter, hf, hexp]) heq.symm
    · rintro ⟨hmem, hall⟩
      refine ⟨hmem, fun f hf heq => ?_⟩
      rw [expiredFileRows, List.mem_filter] at hf
      exact hall f hf.1 (by simpa using hf.2) (heq ▸ rfl)

/-- Concrete expired file row used by the C7 witness. -/
def expiredRow : FileRow :=
  { id := "f1", name := "old.pdf", mimeType := "application/pdf", size := 10,
    filePath := "u1/old.pdf", expiresAt := 50 }

/-- Concrete unexpired file row used by the C7 witness. -/
def freshRow : FileRow :=
  { id := "f2", name := "new.pdf", mimeType := "application/pdf", size := 20,
    filePath := "u1/new.pdf", expiresAt := 500 }

/-- Concrete backend state used by the C7 witness. -/
def sampleFileState : FileStoreState :=
  { files := [expiredRow, freshRow], objects := ["u1/old.pdf", "u1/new.pdf"] }

/-- Witness for C7 at a concrete state: one expired row, one fresh row. -/
theorem addFile_cleanup_spec_witness :
    (addFile "f3" 100 "a.txt" "text/plain" 3 "u1/a.txt" sampleFileState).files.head?
        = some (mkFileRow "f3" 100 "a.txt" "text/plain" 3 "u1/a.txt") ∧
    (mkFileRow "f3" 100 "a.txt" "text/plain" 3 "u1/a.txt").expiresAt
        = 100 + 24 * 60 * 60 * 1000 ∧
    (freshRow ∈ (cleanup_expired_files 100 sampleFileState).files ↔
      freshRow ∈ sampleFileState.files ∧ ¬ freshRow.expiresAt < 100) ∧
    ("u1/new.pdf" ∈ (cleanup_expired_files 100 sampleFileState).objects ↔
      "u1/new.pdf" ∈ sampleFileState.objects ∧
        ∀ f ∈ sampleFileState.files, f.expiresAt < 100 → ¬ f.filePath = "u1/new.pdf") :=
  addFile_cleanup_spec 100 100 sampleFileState "f3" "a.txt" "text/plain" "u1/a.txt" 3
    freshRow "u1/new.pdf" (by decide)

/-- The mutable per-row state seen by the `projects` BEFORE UPDATE trigger:
the completed flag, the nullable completion time, the update time. -/
structure TaskRowState where
  completed : Bool
  completedAt : Option Int
  updatedAt : Int
deriving DecidableEq

/-- The trigger function `update_completed_at` (database_schema.sql lines
117-137): stamp `completed_at` when completed flips false to true, clear it
when it flips true to false, and always refresh `updated_at`.  The
`OLD.completed IS NULL` disjunct of the SQL cannot hold because the column
is NOT NULL. -/
def update_completed_at (now : Int) (oldRow newRow : TaskRowState) : TaskRowState :=
  if newRow.completed && !oldRow.completed then
    { newRow with completedAt := some now, updatedAt := now }
  else if !newRow.completed && oldRow.completed then
    { newRow with completedAt := none, updatedAt := now }
  else
    { newRow with updatedAt := now }

/-- The invariant of C8: `completed_at` is non-null exactly when the row is
completed. -/
def completedAtInvariant (r : TaskRowState) : Prop :=
  r.completedAt.isSome = true ↔ r.completed = true

/-- The row state produced by an `addTask` INSERT (projects hook lines
313-317 and the column defaults of database_schema.sql lines 64-72):
completed is false and `completed_at` is NULL. -/
def insertedTaskRow (now : Int) : TaskRowState :=
  { completed := false, completedAt := none, updatedAt := now }

/-- C8: a row inserted with completed = false satisfies the invariant, and
the BEFORE UPDATE trigger preserves it for any update that does not itself
touch `completed_at`: it stamps the completion time on a false-to-true flip
and clears it on a true-to-false flip. -/
theorem update_completed_at_invariant (now insertTime : Int) (oldRow newRow : TaskRowState)
    (hold : completedAtInvariant oldRow)
    (hframe : newRow.completedAt = oldRow.completedAt) :
    completedAtInvariant (insertedTaskRow insertTime) ∧
    completedAtInvariant (update_completed_at now oldRow newRow) ∧
    (newRow.completed = true → oldRow.completed = false →
        (update_completed_at now oldRow newRow).completedAt = some now) ∧
    (newRow.completed = false → oldRow.completed = true →
        (update_completed_at now oldRow newRow).completedAt = none) := by
  refine ⟨by simp [completedAtInvariant, insertedTaskRow], ?_, ?_, ?_⟩
  · cases hn : newRow.completed with
    | true =>
        cases ho : oldRow.completed with
        | false => simp [completedAtInvariant, update_completed_at, hn, ho]
        | true =>
            have : oldRow.completedAt.isSome = true := by
              rw [completedAtInvariant] at hold
              exact hold.mpr ho
            simp [completedAtInvariant, update_completed_at, hn, ho, hframe, this]
    | false =>
        cases ho : oldRow.completed with
        | true => simp [completedAtInvariant, update_completed_at, hn, ho]
        | false =>
            have : ¬ oldRow.completedAt.isSome = true := by
              rw [completedAtInvariant] at hold
              intro hs
              exact absurd (hold.mp hs) (by simp [ho])
            simp only [Bool.not_eq_true] at this
            simp [completedAtInvariant, update_completed_at, hn, ho, hframe, this]
  · intro hn ho
    simp [update_completed_at, hn, ho]
  · intro hn ho
    simp [update_completed_at, hn, ho]

/-- Witness for C8: toggling a fresh incomplete row to completed stamps the
completion time and keeps the invariant. -/
theorem update_completed_at_invariant_witness :
    completedAtInvariant (insertedTaskRow 0) ∧
    completedAtInvariant (update_completed_at 9
      { completed := false, completedAt := none, updatedAt := 0 }
      { completed := true, completedAt := none, updatedAt := 0 }) ∧
    (({ completed := true, completedAt := none, updatedAt := 0 } : TaskRowState).completed = true →
        ({ completed := false, completedAt := none, updatedAt := 0 } : TaskRowState).completed = false →
        (update_completed_at 9
          { completed := false, completedAt := none, updatedAt := 0 }
          { completed := true, completedAt := none, updatedAt := 0 }).completedAt = some 9) ∧
    (({ completed := true, completedAt := none, updatedAt := 0 } : TaskRowState).completed = false →
        ({ completed := false, completedAt := none, updatedAt := 0 } : TaskRowState).completed = true →
        (update_completed_at 9
          { completed := false, completedAt := none, updatedAt := 0 }
          { completed := true, completedAt := none, updatedAt := 0 }).completedAt = none) :=
  update_completed_at_invariant 9 0
    { completed := false, completedAt := none, updatedAt := 0 }
    { completed := true, completedAt := none, updatedAt := 0 }
    (by simp [completedAtInvariant]) rfl

/-- What one iteration of the `updateUser` retry loop observes from the
remote auth call (useAuth.ts lines 251-337): the call returns an error
object, throws, succeeds with a user in the response, or succeeds without
one. -/
inductive AuthAttemptOutcome where
  | failed (err : String)
  | crashed (err : String)
  | successUser
  | successNoUser
deriving DecidableEq

/-- `maxAttempts` of the retry loop (useAuth.ts line 248). -/
def maxAttempts : Nat := 3

/-- Result of the update operation as returned to the caller. -/
structure UpdateResult where
  success : Bool
  error : Option String
deriving DecidableEq

/-- The code run after the loop exits (useAuth.ts lines 339-342): failure
with the last recorded error, or a fixed message when none was recorded. -/
def afterLoop (lastError : Option String) : UpdateResult :=
  { success := false,
    error := some (match lastError with
      | some msg => msg
      | none => "All auth update attempts failed") }

/-- The retry loop of `updateUser` (useAuth.ts lines 246-342), driven by the
number of remaining permitted attempts (`maxAttempts - updateAttempts`, the
value of the `while` guard).  Each iteration increments the attempt counter;
a returned error retries while attempts remain and otherwise breaks with the
error recorded; a crash records the error and re-enters the guard; a
response with a user returns success; a response without one breaks.
Returns the number of attempts performed and the result. -/
def retryAttempts (outcome : Nat → AuthAttemptOutcome) :
    Nat → Nat → Option String → Nat × UpdateResult
  | 0, updateAttempts, lastError => (updateAttempts, afterLoop lastError)
  | remaining + 1, updateAttempts, lastError =>
      match outcome (updateAttempts + 1) with
      | AuthAttemptOutcome.successUser => (updateAttempts + 1, { success := true, error := none })
      | AuthAttemptOutcome.successNoUser => (updateAttempts + 1, afterLoop lastError)
      | AuthAttemptOutcome.failed err =>
          if remaining = 0 then (updateAttempts + 1, afterLoop (some err))
          else retryAttempts outcome remaining (updateAttempts + 1) (some err)
      | AuthAttemptOutcome.crashed err =>
          retryAttempts outcome remaining (updateAttempts + 1) (some err)

/-- The auth-update phase of `updateUser`: start with zero attempts and no
recorded error. -/
def updateUser (outcome : Nat → AuthAttemptOutcome) : Nat × UpdateResult :=
  retryAttempts outcome maxAttempts 0 none

lemma retryAttempts_le (outcome : Nat → AuthAttemptOutcome) (remaining : Nat) :
    ∀ (updateAttempts : Nat) (lastError : Option String),
      (retryAttempts outcome remaining updateAttempts lastError).1
        ≤ updateAttempts + remaining := by
  induction remaining with
  | zero => intro ua le; simp [retryAttempts]
  | succ rem ih =>
      intro ua le
      rw [retryAttempts]
      cases outcome (ua + 1) with
      | successUser => simp
      | successNoUser => simp
      | failed err =>
          cases rem with
          | zero => simp [retryAttempts]
          | succ r =>
              simp only [Nat.succ_ne_zero, if_false]
              calc (retryAttempts outcome (r + 1) (ua + 1) (some err)).1
                  ≤ (ua + 1) + (r + 1) := ih (ua + 1) (some err)
                _ ≤ ua + (r + 1 + 1) := by omega
      | crashed err =>
          calc (retryAttempts outcome rem (ua + 1) (some err)).1
              ≤ (ua + 1) + rem := ih (ua + 1) (some err)
            _ ≤ ua + (rem + 1) := by omega

/-- C9: the `updateUser` retry loop performs at most `maxAttempts` = 3
remote attempts for every possible outcome sequence, and when the first
three attempts all return errors it performs exactly 3 attempts and returns
failure carrying the third (last) error rather than retrying further. -/
theorem updateUser_retry_bound (outcome : Nat → AuthAttemptOutcome)
    (err1 err2 err3 : String)
    (h1 : outcome 1 = AuthAttemptOutcome.failed err1)
    (h2 : outcome 2 = AuthAttemptOutcome.failed err2)
    (h3 : outcome 3 = AuthAttemptOutcome.failed err3) :
    (∀ outcomes, (updateUser outcomes).1 ≤ maxAttempts) ∧
    (updateUser outcome).1 = 3 ∧
    (updateUser outcome).2 = { success := false, error := some err3 } := by
    refine ⟨fun outcomes => by simpa using retryAttempts_le outcomes maxAttempts 0 none, ?_, ?_⟩
    · simp [updateUser, maxAttempts, retryAttempts, h1, h2, h3]
    · simp [updateUser, maxAttempts, retryAttempts, h1, h2, h3, afterLoop]

/-- Outcome sequence where every attempt returns an error; used by the C9
witness. -/
def alwaysFailing : Nat → AuthAttemptOutcome :=
  fun n => AuthAttemptOutcome.failed ("error " ++ toString n)

/-- Witness for C9 at the always-failing outcome sequence. -/
theorem updateUser_retry_bound_witness :
    (∀ outcomes, (updateUser outcomes).1 ≤ maxAttempts) ∧
    (updateUser alwaysFailing).1 = 3 ∧
    (updateUser alwaysFailing).2 = { success := false, error := some "error 3" } :=
  updateUser_retry_bound alwaysFailing "error 1" "error 2" "error 3" rfl rfl rfl
